import Mathlib

/-!
Verification of the FASTER YCSB benchmark driver
(src/cc/benchmark-dir/benchmark-c.cc) against its specification.

The driver is shallowly embedded: compile-time constants become Nat
definitions, the operation enumeration becomes an inductive type, the
per-item dispatch switch becomes a function on counters, the file-load
loop becomes a structurally faithful recursion on remaining bytes, and
the atomic fetch-and-add work distribution is modelled by the serialised
sequence of counter values (the counter is advanced only by atomic
fetch-and-add, so any interleaving of the workers observes exactly the
values 0, C, 2C, ... in some order).
-/

/-- Constant kInitCount (line 41): number of 8-byte keys in the load file. -/
def kInitCount : Nat := 250000000

/-- Constant kTxnCount (line 42): number of 8-byte keys in the run file. -/
def kTxnCount : Nat := 1000000000

/-- Constant kChunkSize (line 43), in bytes. -/
def kChunkSize : Nat := 3200 * 8

/-- Constant kRefreshInterval (line 44), in bytes. -/
def kRefreshInterval : Nat := 64 * 8

/-- Constant kCompletePendingInterval (line 45), in bytes. -/
def kCompletePendingInterval : Nat := 1600 * 8

/-- Constant kNanosPerSecond (line 52). -/
def kNanosPerSecond : Nat := 1000000000

/-- Constant kFileChunkSize (line 169): block size of the file-read loop. -/
def kFileChunkSize : Nat := 131072

/-- Enum Op (lines 26-32). -/
inductive Op where
  | Insert
  | Read
  | Upsert
  | Scan
  | ReadModifyWrite
deriving DecidableEq, Repr

/-- Enum Workload (lines 34-39), kept as the raw integer the CLI parses
(main casts atol's result, so any integer can arrive here). -/
def workloadA5050 : Int := 0

/-- Function ycsb_a_50_50 (lines 64-70): the argument is the 32-bit draw
rng() of the per-thread Mersenne Twister. -/
def ycsb_a_50_50 (r : Nat) : Op :=
  if r % 100 < 50 then Op.Read else Op.Upsert

/-- Function ycsb_rmw_100 (lines 72-74). -/
def ycsb_rmw_100 (_r : Nat) : Op := Op.ReadModifyWrite

/-- Function ycsb_upsert_100 (lines 76-78). -/
def ycsb_upsert_100 (_r : Nat) : Op := Op.Upsert

/-- Function ycsb_read_100 (lines 80-82). -/
def ycsb_read_100 (_r : Nat) : Op := Op.Read

/-- Number of 32-bit generator outputs below N that the A_50_50 mixer maps
to a read. -/
def a5050ReadCount (N : Nat) : Nat :=
  (List.range N).countP (fun v => decide (ycsb_a_50_50 v = Op.Read))

/-- Number of 32-bit generator outputs below N that the A_50_50 mixer maps
to an upsert (write). -/
def a5050UpsertCount (N : Nat) : Nat :=
  (List.range N).countP (fun v => decide (ycsb_a_50_50 v = Op.Upsert))

/-- Function rmw_cb (lines 87-96): asserts its length argument equals 8 and
its modification_length argument equals 8; when dst is non-null writes
dst[0] = current[0] + modification[0] (uint8 wrap-around) and returns 8.
A violated assertion is modelled as none; some (firstByteWritten, ret)
models a successful call. -/
def rmw_cb (current : List Nat) (length : Nat) (modification : List Nat)
    (modification_length : Nat) (dst_present : Bool) : Option (Option Nat × Nat) :=
  if length = 8 ∧ modification_length = 8 then
    some (if dst_present then
            (some ((current.headD 0 + modification.headD 0) % 256), 8)
          else (none, 8))
  else
    none

/-- Modification-buffer length the measurement loop passes to faster_rmw
(line 318: faster_rmw(store, key, 8, modification, 1, 1, rmw_cb)). -/
def rmw_call_modification_length : Nat := 1

/-- Key length the measurement loop passes to faster_rmw (line 318). -/
def rmw_call_key_length : Nat := 8

/-- Modification length rmw_cb asserts (line 89: assert(modification_length == 8)). -/
def rmw_cb_asserted_modification_length : Nat := 8

/-- Byte-accumulation loop of load_files (lines 180-191 and 208-219): reads
blocks of kFileChunkSize bytes at increasing offsets, adding each block's
size to count, and stops at the first short read. fileLen is the length of
the underlying file, so a read at offset returns
min kFileChunkSize (fileLen - offset) bytes. -/
def readLoop (fileLen count offset : Nat) : Nat :=
  if h : min kFileChunkSize (fileLen - offset) = kFileChunkSize then
    readLoop fileLen (count + kFileChunkSize) (offset + kFileChunkSize)
  else
    count + min kFileChunkSize (fileLen - offset)
termination_by fileLen - offset
decreasing_by
  have hle : kFileChunkSize ≤ fileLen - offset := min_eq_left_iff.mp h
  have hpos : 0 < kFileChunkSize := by decide
  omega

/-- Total byte count accumulated by one load loop over a file of fileLen bytes. -/
def readLoopCount (fileLen : Nat) : Nat := readLoop fileLen 0 0

/-- Function load_files (lines 168-225), abstracted over the byte lengths of
the two files: loads the init file, exits with code 1 when
kInitCount != count / 8 (lines 192-195); loads the txn file, exits with
code 1 when kTxnCount != count / 8 (lines 220-223); otherwise returns the
two loaded record counts. -/
def load_files (initLen txnLen : Nat) : Except Nat (Nat × Nat) :=
  if kInitCount ≠ readLoopCount initLen / 8 then Except.error 1
  else if kTxnCount ≠ readLoopCount txnLen / 8 then Except.error 1
  else Except.ok (readLoopCount initLen / 8, readLoopCount txnLen / 8)

/-- Predicate for a fatal load (the process exits). -/
def loadFatal (r : Except Nat (Nat × Nat)) : Bool :=
  match r with
  | Except.error _ => true
  | Except.ok _ => false

/-- Worker-local outcome counters reads_done and writes_done (lines 279-280). -/
structure Counters where
  reads : Nat
  writes : Nat
deriving DecidableEq, Repr

/-- Dispatch switch of the measurement loop (lines 297-323): upserts and
inserts increment writes_done unconditionally; Scan prints and exits with
code 1; reads increment reads_done with no status inspection; a
read-modify-write increments writes_done only when the engine status
(the uint8 result of faster_rmw, line 318) is 0. -/
def processOp (op : Op) (status : Nat) (c : Counters) : Except Nat Counters :=
  match op with
  | Op.Insert => Except.ok { c with writes := c.writes + 1 }
  | Op.Upsert => Except.ok { c with writes := c.writes + 1 }
  | Op.Scan => Except.error 1
  | Op.Read => Except.ok { c with reads := c.reads + 1 }
  | Op.ReadModifyWrite =>
      Except.ok (if status = 0 then { c with writes := c.writes + 1 } else c)

/-- Sweep construction of main (lines 382-393): a zero thread count selects
the built-in sweep, any other count a singleton. -/
def thread_configurations (num_threads : Nat) : List Nat :=
  if num_threads = 0 then [1, 2, 4, 8, 16, 32, 48]
  else [num_threads]

/-- Trial loop of main (lines 395-432): for each sweep entry, three trials;
each trial populates the store with 48 threads (line 403: setup_store(store, 48))
and then runs the measurement phase with num_threads workers (lines 411-420:
run_benchmark(store, num_threads) - note the loop variable
num_benchmark_threads is never used). Each trial is recorded as
(populationThreadCount, measurementThreadCount). -/
def benchmarkRuns (num_threads : Nat) : List (Nat × Nat) :=
  (thread_configurations num_threads).flatMap
    (fun _entry => List.replicate 3 (48, num_threads))

/-- Atomic fetch-and-add on the shared work counter idx_ (line 56): returns
the old value and the new counter state. -/
def fetch_add (s c : Nat) : Nat × Nat := (s, s + c)

/-- Counter state after n serialised fetch-and-adds of c, starting from the
reset value 0 (idx_ = 0, lines 254 and 341). -/
def counterState (c : Nat) : Nat → Nat
  | 0 => 0
  | n + 1 => (fetch_add (counterState c n) c).2

/-- Old value returned by the n-th (0-based) serialised fetch-and-add. -/
def fetchResult (c n : Nat) : Nat := (fetch_add (counterState c n) c).1

/-- Chunk starts issued during one phase in which n fetch-and-adds of c
occur: a fetch whose old value is below the corpus length L yields the
chunk starting there (lines 233-234 and 285-289: a worker processes the
range only when the old value is below the corpus byte length). -/
def issuedStarts (c L n : Nat) : List Nat :=
  (List.range n).filterMap
    (fun i => if fetchResult c i < L then some (fetchResult c i) else none)

/-- Membership of a byte index in the half-open chunk [start, start + c). -/
def inChunk (start c x : Nat) : Prop := start ≤ x ∧ x < start + c

instance (start c x : Nat) : Decidable (inChunk start c x) :=
  inferInstanceAs (Decidable (start ≤ x ∧ x < start + c))

/-- Events a worker emits, in program order (thread_run_benchmark,
lines 282-328): session-refresh calls, non-blocking and blocking
complete-pending calls, one data operation per item, and the session close. -/
inductive Event where
  | refresh
  | drainNonBlocking
  | item (idx : Nat)
  | drainBlocking
  | stopSession
deriving DecidableEq, Repr

/-- Events emitted for the single item at byte index idx (lines 291-296 and
297-323): when idx is a multiple of R the worker refreshes its session, and
additionally drains pending operations non-blockingly when idx is also a
multiple of P; then it issues the item's data operation. -/
def itemEvents (R P idx : Nat) : List Event :=
  (if idx % R = 0 then
     Event.refresh :: (if idx % P = 0 then [Event.drainNonBlocking] else [])
   else []) ++ [Event.item idx]

/-- Events emitted while processing one chunk (line 290: the item loop walks
idx from chunkIdx to chunkIdx + C in steps of 8). -/
def chunkEvents (R P C chunkIdx : Nat) : List Event :=
  (List.range (C / 8)).flatMap (fun i => itemEvents R P (chunkIdx + 8 * i))

/-- Events one worker emits over a whole measurement phase: its chunks in
acquisition order, then the terminal blocking drain (line 327:
faster_complete_pending(store, true)) and the session close (line 328:
faster_stop_session). -/
def workerEvents (R P C : Nat) (chunks : List Nat) : List Event :=
  chunks.flatMap (chunkEvents R P C) ++ [Event.drainBlocking, Event.stopSession]

/-- Per-worker results published at thread exit (lines 332-334): reads_done,
writes_done and the wall-clock duration of the worker in nanoseconds. -/
structure WorkerStats where
  reads : Nat
  writes : Nat
  durationNs : Nat
deriving DecidableEq, Repr

/-- Publication of one worker's local counters into the process-wide atomic
accumulators (total_duration_ += ...; total_reads_done_ += ...;
total_writes_done_ += ..., lines 332-334). The accumulator triple is
(totalDurationNs, totalReads, totalWrites). -/
def publishStats (acc : Nat × Nat × Nat) (w : WorkerStats) : Nat × Nat × Nat :=
  (acc.1 + w.durationNs, acc.2.1 + w.reads, acc.2.2 + w.writes)

/-- Throughput figure of run_benchmark (lines 360-365): the accumulators are
reset to zero (lines 342-344), each worker publishes once, and the result is
(totalReads + totalWrites) / (totalDurationNs / kNanosPerSecond), computed
over the rationals in place of C doubles. -/
def run_benchmark_throughput (workers : List WorkerStats) : ℚ :=
  let acc := workers.foldl publishStats (0, 0, 0)
  ((acc.2.1 : ℚ) + (acc.2.2 : ℚ)) / ((acc.1 : ℚ) / (kNanosPerSecond : ℚ))

/-- Longest single worker duration: a lower bound on the wall-clock span of
the phase. -/
def maxWorkerDurationNs (workers : List WorkerStats) : Nat :=
  workers.foldr (fun w m => max w.durationNs m) 0

/-- Modelled from the spec: the contrasting wall-clock metric the spec says
the code does NOT compute - total completed operations divided by the
wall-clock span of the phase in seconds, the span taken here at its lower
bound, the longest single worker duration. -/
def spec_wall_clock_throughput (workers : List WorkerStats) : ℚ :=
  (((workers.map WorkerStats.reads).sum : ℚ) + ((workers.map WorkerStats.writes).sum : ℚ)) /
    ((maxWorkerDurationNs workers : ℚ) / (kNanosPerSecond : ℚ))

/-- Exit-code behaviour of main (lines 368-440): argc != 5 exits with 0
(lines 370-373); a file-load failure exits with 1 inside load_files; a
workload integer outside 0..3 hits the default switch case and exits with 1
(lines 422-424); otherwise main returns 0. -/
def mainExitCode (argc : Nat) (workload : Int) (initLen txnLen : Nat) : Nat :=
  if argc ≠ 5 then 0
  else
    match load_files initLen txnLen with
    | Except.error e => e
    | Except.ok _ =>
        if workload = 0 ∨ workload = 1 ∨ workload = 2 ∨ workload = 3 then 0
        else 1

/-! Helper lemmas shared by the claim theorems. -/

/-- Helper: the file-read loop accumulates exactly the bytes remaining past
its offset. -/
theorem readLoop_eq (fileLen count offset : Nat) :
    readLoop fileLen count offset = count + (fileLen - offset) := by
  rw [readLoop]
  split
  · rename_i h
    have hle : kFileChunkSize ≤ fileLen - offset := min_eq_left_iff.mp h
    rw [readLoop_eq fileLen (count + kFileChunkSize) (offset + kFileChunkSize)]
    omega
  · omega
termination_by fileLen - offset
decreasing_by
  have hpos : 0 < kFileChunkSize := by decide
  omega

/-- Helper: a file of fileLen bytes loads exactly fileLen bytes. -/
theorem readLoopCount_eq (fileLen : Nat) : readLoopCount fileLen = fileLen := by
  unfold readLoopCount
  rw [readLoop_eq]
  omega

/-- Helper: load_files with the loop counts resolved to the file lengths. -/
theorem load_files_eq (i t : Nat) :
    load_files i t =
      (if kInitCount ≠ i / 8 then Except.error 1
       else if kTxnCount ≠ t / 8 then Except.error 1
       else Except.ok (i / 8, t / 8)) := by
  simp only [load_files, readLoopCount_eq]

/-- Helper: the counter state after n fetch-and-adds of c is n * c. -/
theorem counterState_eq (c n : Nat) : counterState c n = n * c := by
  induction n with
  | zero => simp [counterState]
  | succ n ih => simp [counterState, fetch_add, ih, Nat.succ_mul]

/-- Helper: the n-th fetch-and-add returns the old value n * c. -/
theorem fetchResult_eq (c n : Nat) : fetchResult c n = n * c := by
  simp [fetchResult, fetch_add, counterState_eq]

/-- Helper: the chunk starts issued in a phase of n fetches are exactly the
multiples of c below L reached within n fetches. -/
theorem mem_issuedStarts (c L n s : Nat) :
    s ∈ issuedStarts c L n ↔ ∃ i, i < n ∧ i * c < L ∧ s = i * c := by
  simp only [issuedStarts, List.mem_filterMap, List.mem_range, fetchResult_eq]
  constructor
  · rintro ⟨i, hi, hf⟩
    by_cases hic : i * c < L
    · simp only [if_pos hic, Option.some.injEq] at hf
      exact ⟨i, hi, hic, hf.symm⟩
    · simp [if_neg hic] at hf
  · rintro ⟨i, hi, hic, rfl⟩
    exact ⟨i, hi, by simp [if_pos hic]⟩

/-! Claim theorems. -/

/-- C1: main builds the sweep [1, 2, 4, 8, 16, 32, 48] when the CLI thread
count is 0, yet every one of the 21 resulting trials runs its measurement
phase with 0 worker threads (the CLI value), not with the sweep entry's
count: the sweep variable num_benchmark_threads is never used. -/
theorem c1_sweep_measurement_thread_counts :
    thread_configurations 0 = [1, 2, 4, 8, 16, 32, 48] ∧
    benchmarkRuns 0 = List.replicate 21 (48, 0) := by
  constructor <;> rfl

/-- C3: a read-modify-write increments the worker's writes_done counter by
one exactly when the engine status is 0, leaves it unchanged on any nonzero
status, and never touches reads_done. -/
theorem c3_rmw_counts_on_status (status : Nat) (c : Counters) :
    processOp Op.ReadModifyWrite status c =
      Except.ok ⟨c.reads, c.writes + (if status = 0 then 1 else 0)⟩ := by
  by_cases hs : status = 0 <;> simp [processOp, hs]

/-- C4 (amended): the load is fatal exactly when a file's byte count divided
by 8 (truncating) differs from the expected record count - kInitCount for
the load file, kTxnCount for the run file - and a file with exactly the
expected byte count loads successfully. Being a non-multiple of 8 is not by
itself fatal. -/
theorem c4_load_check_truncating :
    (∀ i t, loadFatal (load_files i t) = true ↔
      ¬(kInitCount = i / 8 ∧ kTxnCount = t / 8)) ∧
    load_files (8 * kInitCount) (8 * kTxnCount) = Except.ok (kInitCount, kTxnCount) := by
  constructor
  · intro i t
    rw [load_files_eq]
    by_cases hi : kInitCount = i / 8
    · by_cases ht : kTxnCount = t / 8
      · simp [hi, ht, loadFatal]
      · simp [hi, ht, loadFatal]
    · simp [hi, loadFatal]
  · rw [load_files_eq]
    norm_num

/-- C4 counterexample: an init file of 2000000001 bytes is not a multiple of
8, yet (with a well-formed run file) the load succeeds, because
2000000001 / 8 = 250000000 = kInitCount under truncating division. -/
theorem c4_counterexample_odd_byte_count :
    ¬(8 ∣ (2000000001 : Nat)) ∧
    load_files 2000000001 (8 * kTxnCount) = Except.ok (kInitCount, kTxnCount) := by
  constructor
  · decide
  · rw [load_files_eq]
    norm_num [kInitCount, kTxnCount]

/-- C7: main exits with 0 on a bad argument count and on a successful run
(workload 0, 1, 2 or 3 with matching files), and exits with 1 on a load
mismatch of either file and on a workload integer outside 0..3; the Scan
dispatch case terminates the process with exit code 1. -/
theorem c7_exit_codes :
    (∀ argc w i t, argc ≠ 5 → mainExitCode argc w i t = 0) ∧
    (∀ w i t, kInitCount ≠ i / 8 → mainExitCode 5 w i t = 1) ∧
    (∀ w i t, kTxnCount ≠ t / 8 → mainExitCode 5 w i t = 1) ∧
    (∀ w, (w = 0 ∨ w = 1 ∨ w = 2 ∨ w = 3) →
      mainExitCode 5 w (8 * kInitCount) (8 * kTxnCount) = 0) ∧
    (∀ w, ¬(w = 0 ∨ w = 1 ∨ w = 2 ∨ w = 3) →
      mainExitCode 5 w (8 * kInitCount) (8 * kTxnCount) = 1) ∧
    (∀ status c, processOp Op.Scan status c = Except.error 1) := by
  have hok : load_files (8 * kInitCount) (8 * kTxnCount) =
      Except.ok (kInitCount, kTxnCount) := by
    rw [load_files_eq]
    norm_num
  refine ⟨?_, ?_, ?_, ?_, ?_, ?_⟩
  · intro argc w i t h
    unfold mainExitCode
    simp [h]
  · intro w i t h
    unfold mainExitCode
    rw [load_files_eq, if_pos h]
    norm_num
  · intro w i t h
    unfold mainExitCode
    rw [load_files_eq]
    by_cases hi : kInitCount ≠ i / 8
    · rw [if_pos hi]
      norm_num
    · rw [if_neg hi, if_pos h]
      norm_num
  · intro w hw
    unfold mainExitCode
    rw [hok]
    simp [hw]
  · intro w hw
    unfold mainExitCode
    rw [hok]
    simp [hw]
  · intro status c
    rfl

/-- C9 counterexample: rmw_cb does not read 8 bytes of the modification
buffer: with its assertions satisfied (length 8, modification length 8,
dst present) its result is the same for two modification buffers that agree
on their first byte and differ everywhere else, and that result is
determined by current[0] + modification[0] alone ((1 + 9) mod 256 = 10). -/
theorem c9_counterexample_reads_one_byte :
    rmw_cb [1, 2, 3, 4, 5, 6, 7, 8] 8 [9, 10, 11, 12, 13, 14, 15, 16] 8 true =
      rmw_cb [1, 2, 3, 4, 5, 6, 7, 8] 8 [9, 99, 98, 97, 96, 95, 94, 93] 8 true ∧
    rmw_cb [1, 2, 3, 4, 5, 6, 7, 8] 8 [9, 10, 11, 12, 13, 14, 15, 16] 8 true =
      some (some 10, 8) := by
  constructor <;> decide

/-- C9 (amended): the measurement loop passes modification length 1 to
faster_rmw while rmw_cb asserts modification length 8, so rmw_cb invoked
with the caller's own arguments fails its assertion: the caller does not
establish the callback's asserted precondition. The callback reads only the
first byte of the modification buffer (modification[0], line 92), not 8
bytes: its result does not depend on the remaining bytes. -/
theorem c9_rmw_modification_length_mismatch :
    (∀ current modification dst_present,
      rmw_cb current rmw_call_key_length modification
        rmw_call_modification_length dst_present = none) ∧
    rmw_call_modification_length ≠ rmw_cb_asserted_modification_length ∧
    (∀ current length modification modification2 dst_present,
      modification.headD 0 = modification2.headD 0 →
      rmw_cb current length modification
          rmw_cb_asserted_modification_length dst_present =
        rmw_cb current length modification2
          rmw_cb_asserted_modification_length dst_present) := by
  refine ⟨?_, ?_, ?_⟩
  · intro current modification dst_present
    unfold rmw_cb rmw_call_key_length rmw_call_modification_length
    norm_num
  · decide
  · intro current length modification modification2 dst_present hhead
    unfold rmw_cb
    rw [hhead]

/-- C10: every trial of every configuration populates the store with exactly
48 threads, independent of the CLI thread count; the measurement phase of
each trial uses the CLI thread count. -/
theorem c10_population_always_48_threads (num_threads : Nat) (run : Nat × Nat)
    (hrun : run ∈ benchmarkRuns num_threads) :
    run.1 = 48 ∧ run.2 = num_threads := by
  unfold benchmarkRuns at hrun
  simp only [List.mem_flatMap, List.mem_replicate] at hrun
  obtain ⟨_, _, _, hr⟩ := hrun
  simp [hr]

/-- C10 witness: the second trial triple of a run with CLI thread count 5
populates with 48 threads and measures with 5. -/
theorem c10_population_witness :
    (48, 5) ∈ benchmarkRuns 5 ∧ ((48, 5) : Nat × Nat).1 = 48 ∧
      ((48, 5) : Nat × Nat).2 = 5 :=
  ⟨by decide, c10_population_always_48_threads 5 (48, 5) (by decide)⟩

/-- C2: for a corpus of L bytes that is an exact multiple of the chunk size
c, the chunks issued by the shared fetch-and-add counter during one phase
(n fetches, enough to exhaust the counter) partition [0, L) exactly: every
byte index below L lies in an issued chunk, no two distinct issued chunks
overlap, and every issued chunk lies inside [0, L). The worker count does
not appear: fetch-and-add serialises the fetches of any number of workers,
so the i-th fetch returns i * c no matter which worker performs it. -/
theorem c2_chunks_partition_corpus (c L m n : Nat) (hc : 0 < c)
    (hL : L = m * c) (hmn : m ≤ n) :
    (∀ x, x < L → ∃ s ∈ issuedStarts c L n, inChunk s c x) ∧
    (∀ s₁ ∈ issuedStarts c L n, ∀ s₂ ∈ issuedStarts c L n, s₁ ≠ s₂ →
      ∀ x, ¬(inChunk s₁ c x ∧ inChunk s₂ c x)) ∧
    (∀ s ∈ issuedStarts c L n, ∀ x, inChunk s c x → x < L) := by
  subst hL
  refine ⟨?_, ?_, ?_⟩
  · intro x hx
    have hdiv : x / c < m := (Nat.div_lt_iff_lt_mul hc).mpr hx
    refine ⟨x / c * c,
      (mem_issuedStarts c (m * c) n _).mpr
        ⟨x / c, Nat.lt_of_lt_of_le hdiv hmn, (Nat.mul_lt_mul_right hc).mpr hdiv, rfl⟩,
      ?_⟩
    simp only [inChunk]
    have h1 := Nat.div_add_mod x c
    have h2 := Nat.mod_lt x hc
    have h3 : x / c * c = c * (x / c) := Nat.mul_comm _ _
    omega
  · intro s₁ hs₁ s₂ hs₂ hne x hx
    obtain ⟨hx₁, hx₂⟩ := hx
    simp only [inChunk] at hx₁ hx₂
    obtain ⟨i, _, _, rfl⟩ := (mem_issuedStarts c (m * c) n s₁).mp hs₁
    obtain ⟨j, _, _, rfl⟩ := (mem_issuedStarts c (m * c) n s₂).mp hs₂
    have hij : i ≠ j := fun h => hne (by rw [h])
    have key : ∀ a b : Nat, a < b → a * c ≤ x → x < a * c + c → b * c ≤ x → False := by
      intro a b hab ha1 ha2 hb1
      have h1 : (a + 1) * c ≤ b * c := Nat.mul_le_mul_right c hab
      have h2 : (a + 1) * c = a * c + c := Nat.succ_mul a c
      omega
    rcases Nat.lt_or_ge i j with hlt | hge
    · exact key i j hlt hx₁.1 hx₁.2 hx₂.1
    · exact key j i (Nat.lt_of_le_of_ne hge (Ne.symm hij)) hx₂.1 hx₂.2 hx₁.1
  · intro s hs x hx
    simp only [inChunk] at hx
    obtain ⟨i, _, hiL, rfl⟩ := (mem_issuedStarts c (m * c) n s).mp hs
    have him : i < m := Nat.lt_of_mul_lt_mul_right hiL
    have h1 : (i + 1) * c ≤ m * c := Nat.mul_le_mul_right c him
    have h2 : (i + 1) * c = i * c + c := Nat.succ_mul i c
    omega

/-- C2 witness: chunk size 2, corpus length 6 = 3 * 2, four fetches. -/
theorem c2_chunks_partition_witness :
    (0 : Nat) < 2 ∧ (6 : Nat) = 3 * 2 ∧ (3 : Nat) ≤ 4 ∧
    ((∀ x, x < 6 → ∃ s ∈ issuedStarts 2 6 4, inChunk s 2 x) ∧
     (∀ s₁ ∈ issuedStarts 2 6 4, ∀ s₂ ∈ issuedStarts 2 6 4, s₁ ≠ s₂ →
       ∀ x, ¬(inChunk s₁ 2 x ∧ inChunk s₂ 2 x)) ∧
     (∀ s ∈ issuedStarts 2 6 4, ∀ x, inChunk s 2 x → x < 6)) :=
  ⟨by decide, by decide, by decide,
   c2_chunks_partition_corpus 2 6 3 4 (by decide) (by decide) (by decide)⟩

/-- Helper: full characterisation of the events emitted for one item. -/
theorem mem_itemEvents (R P idx : Nat) (e : Event) :
    e ∈ itemEvents R P idx ↔
      (e = Event.refresh ∧ idx % R = 0) ∨
      (e = Event.drainNonBlocking ∧ idx % R = 0 ∧ idx % P = 0) ∨
      e = Event.item idx := by
  unfold itemEvents
  by_cases hR : idx % R = 0
  · by_cases hP : idx % P = 0 <;> simp [hR, hP]
  · simp [hR]

/-- Helper: the blocking drain never appears among a chunk's item events. -/
theorem drainBlocking_not_mem_chunkEvents (R P C start : Nat) :
    Event.drainBlocking ∉ chunkEvents R P C start := by
  unfold chunkEvents
  simp only [List.mem_flatMap, List.mem_range, not_exists, not_and]
  intro i _ hmem
  rw [mem_itemEvents] at hmem
  simp at hmem

/-- Helper: the session close never appears among a chunk's item events. -/
theorem stopSession_not_mem_chunkEvents (R P C start : Nat) :
    Event.stopSession ∉ chunkEvents R P C start := by
  unfold chunkEvents
  simp only [List.mem_flatMap, List.mem_range, not_exists, not_and]
  intro i _ hmem
  rw [mem_itemEvents] at hmem
  simp at hmem

/-- C5: in the worker's item loop a session refresh fires exactly at the
byte indices that are multiples of the refresh interval R, the non-blocking
drain fires exactly at the multiples of the complete-pending interval P
(P being a multiple of R, mirroring the static assertion at lines 49-50),
and the blocking drain fires exactly once per worker, after every item of
every chunk and immediately before the session close, which is the final
event. -/
theorem c5_session_maintenance_cadence (R P C : Nat) (chunks : List Nat)
    (hRP : R ∣ P) :
    (∀ idx, Event.refresh ∈ itemEvents R P idx ↔ R ∣ idx) ∧
    (∀ idx, Event.drainNonBlocking ∈ itemEvents R P idx ↔ P ∣ idx) ∧
    (workerEvents R P C chunks).countP
      (fun e => decide (e = Event.drainBlocking)) = 1 ∧
    (workerEvents R P C chunks).getLast? = some Event.stopSession ∧
    (workerEvents R P C chunks).dropLast.getLast? = some Event.drainBlocking ∧
    Event.drainBlocking ∉ (workerEvents R P C chunks).dropLast.dropLast := by
  have hdB : Event.drainBlocking ∉ chunks.flatMap (chunkEvents R P C) := by
    simp only [List.mem_flatMap, not_exists, not_and]
    intro start _
    exact drainBlocking_not_mem_chunkEvents R P C start
  have hassoc : workerEvents R P C chunks =
      (chunks.flatMap (chunkEvents R P C) ++ [Event.drainBlocking]) ++
        [Event.stopSession] := by
    unfold workerEvents
    simp
  refine ⟨?_, ?_, ?_, ?_, ?_, ?_⟩
  · intro idx
    rw [mem_itemEvents, Nat.dvd_iff_mod_eq_zero]
    simp
  · intro idx
    rw [mem_itemEvents, Nat.dvd_iff_mod_eq_zero]
    have hPR : idx % P = 0 → idx % R = 0 := fun hP =>
      Nat.dvd_iff_mod_eq_zero.mp
        (dvd_trans hRP (Nat.dvd_iff_mod_eq_zero.mpr hP))
    constructor
    · intro h
      rcases h with ⟨he, _⟩ | ⟨_, _, hP⟩ | he
      · simp at he
      · exact hP
      · simp at he
    · intro hP
      exact Or.inr (Or.inl ⟨rfl, hPR hP, hP⟩)
  · rw [hassoc, List.countP_append, List.countP_append]
    have h0 : (chunks.flatMap (chunkEvents R P C)).countP
        (fun e => decide (e = Event.drainBlocking)) = 0 := by
      refine List.countP_eq_zero.mpr ?_
      intro a ha
      simp only [decide_eq_true_eq]
      intro heq
      exact hdB (heq ▸ ha)
    rw [h0]
    decide
  · rw [hassoc, List.getLast?_concat]
  · rw [hassoc, List.dropLast_concat, List.getLast?_concat]
  · rw [hassoc, List.dropLast_concat, List.dropLast_concat]
    exact hdB

/-- C5 witness: the code's own cadence constants (refresh every 512 bytes,
drain every 12800 bytes, chunks of 25600 bytes) and a single chunk at
offset 0. -/
theorem c5_session_maintenance_witness :
    kRefreshInterval ∣ kCompletePendingInterval ∧
    ((∀ idx, Event.refresh ∈
        itemEvents kRefreshInterval kCompletePendingInterval idx ↔
        kRefreshInterval ∣ idx) ∧
     (∀ idx, Event.drainNonBlocking ∈
        itemEvents kRefreshInterval kCompletePendingInterval idx ↔
        kCompletePendingInterval ∣ idx) ∧
     (workerEvents kRefreshInterval kCompletePendingInterval kChunkSize
        [0]).countP (fun e => decide (e = Event.drainBlocking)) = 1 ∧
     (workerEvents kRefreshInterval kCompletePendingInterval kChunkSize
        [0]).getLast? = some Event.stopSession ∧
     (workerEvents kRefreshInterval kCompletePendingInterval kChunkSize
        [0]).dropLast.getLast? = some Event.drainBlocking ∧
     Event.drainBlocking ∉
       (workerEvents kRefreshInterval kCompletePendingInterval kChunkSize
        [0]).dropLast.dropLast) :=
  ⟨⟨25, rfl⟩,
   c5_session_maintenance_cadence kRefreshInterval kCompletePendingInterval
     kChunkSize [0] ⟨25, rfl⟩⟩

/-- Helper: folding the publications of a worker list over the zeroed
accumulators yields the three per-field sums. -/
theorem foldl_publishStats (ws : List WorkerStats) :
    ∀ d r w, ws.foldl publishStats (d, r, w) =
      (d + (ws.map WorkerStats.durationNs).sum,
       r + (ws.map WorkerStats.reads).sum,
       w + (ws.map WorkerStats.writes).sum) := by
  induction ws with
  | nil => intro d r w; simp
  | cons a l ih =>
      intro d r w
      simp only [List.foldl_cons, List.map_cons, List.sum_cons, publishStats]
      rw [ih]
      simp [Nat.add_assoc]

/-- C6: the throughput figure of run_benchmark equals the total of all
workers' reads and writes divided by the sum of the per-worker wall-clock
durations in seconds - and it differs from the wall-clock-span metric: with
two workers of one second each, the formula yields 1 op/s while dividing
by the phase span would yield 2. -/
theorem c6_throughput_per_thread_formula :
    (∀ ws : List WorkerStats,
      run_benchmark_throughput ws =
        (((ws.map WorkerStats.reads).sum : ℚ) +
            ((ws.map WorkerStats.writes).sum : ℚ)) /
          (((ws.map WorkerStats.durationNs).sum : ℚ) / (kNanosPerSecond : ℚ))) ∧
    run_benchmark_throughput
        [⟨1, 0, kNanosPerSecond⟩, ⟨1, 0, kNanosPerSecond⟩] ≠
      spec_wall_clock_throughput
        [⟨1, 0, kNanosPerSecond⟩, ⟨1, 0, kNanosPerSecond⟩] := by
  constructor
  · intro ws
    unfold run_benchmark_throughput
    rw [foldl_publishStats]
    simp
  · unfold run_benchmark_throughput spec_wall_clock_throughput
      maxWorkerDurationNs kNanosPerSecond
    norm_num [publishStats]

/-- Helper: the A_50_50 mixer only looks at its draw modulo 100. -/
theorem ycsb_a_50_50_period (a r : Nat) :
    ycsb_a_50_50 (100 * a + r) = ycsb_a_50_50 r := by
  unfold ycsb_a_50_50
  rw [Nat.add_comm (100 * a) r, Nat.add_mul_mod_self_left]

/-- Helper: splitting a countP over an initial segment of the naturals. -/
theorem countP_range_add (p : Nat → Bool) (m k : Nat) :
    (List.range (m + k)).countP p =
      (List.range m).countP p + (List.range k).countP (fun r => p (m + r)) := by
  rw [List.range_add, List.countP_append, List.countP_map]
  rfl

/-- Helper: a countP over whole 100-draw periods of a predicate with period
100 is proportional to its count over one period. -/
theorem countP_range_mul (q : Nat → Bool) (hq : ∀ c r, q (100 * c + r) = q r)
    (a : Nat) :
    (List.range (100 * a)).countP q = a * (List.range 100).countP q := by
  induction a with
  | zero => simp
  | succ a ih =>
      have hsplit : 100 * (a + 1) = 100 * a + 100 := by ring
      rw [hsplit, countP_range_add, ih]
      have hcongr : (List.range 100).countP (fun r => q (100 * a + r)) =
          (List.range 100).countP q :=
        List.countP_congr (fun x _ => by rw [hq a x])
      rw [hcongr, Nat.succ_mul]

/-- Helper: read count of the A_50_50 mixer split into whole periods (50
reads per period of 100 draws) and a remainder. -/
theorem a5050_read_count_split (a b : Nat) :
    a5050ReadCount (100 * a + b) = 50 * a + a5050ReadCount b := by
  have hq : ∀ c r, (fun v => decide (ycsb_a_50_50 v = Op.Read)) (100 * c + r) =
      (fun v => decide (ycsb_a_50_50 v = Op.Read)) r := by
    intro c r
    simp only [ycsb_a_50_50_period]
  unfold a5050ReadCount
  rw [countP_range_add, countP_range_mul _ hq]
  have hcongr2 : (List.range b).countP
        (fun r => decide (ycsb_a_50_50 (100 * a + r) = Op.Read)) =
      (List.range b).countP (fun v => decide (ycsb_a_50_50 v = Op.Read)) :=
    List.countP_congr (fun x _ => by rw [ycsb_a_50_50_period])
  rw [hcongr2,
    show (List.range 100).countP
      (fun v => decide (ycsb_a_50_50 v = Op.Read)) = 50 from by decide]
  omega

/-- Helper: upsert count of the A_50_50 mixer split into whole periods (50
upserts per period of 100 draws) and a remainder. -/
theorem a5050_upsert_count_split (a b : Nat) :
    a5050UpsertCount (100 * a + b) = 50 * a + a5050UpsertCount b := by
  have hq : ∀ c r, (fun v => decide (ycsb_a_50_50 v = Op.Upsert)) (100 * c + r) =
      (fun v => decide (ycsb_a_50_50 v = Op.Upsert)) r := by
    intro c r
    simp only [ycsb_a_50_50_period]
  unfold a5050UpsertCount
  rw [countP_range_add, countP_range_mul _ hq]
  have hcongr2 : (List.range b).countP
        (fun r => decide (ycsb_a_50_50 (100 * a + r) = Op.Upsert)) =
      (List.range b).countP (fun v => decide (ycsb_a_50_50 v = Op.Upsert)) :=
    List.countP_congr (fun x _ => by rw [ycsb_a_50_50_period])
  rw [hcongr2,
    show (List.range 100).countP
      (fun v => decide (ycsb_a_50_50 v = Op.Upsert)) = 50 from by decide]
  omega

/-- Helper: exact read count of the A_50_50 mixer over the full 32-bit
range: 2^32 = 100 * 42949672 + 96 draws, each whole period of 100
contributes 50 reads and the 96 leftover residues 0..95 contribute 50 more. -/
theorem a5050_read_count_value : a5050ReadCount (2 ^ 32) = 2147483650 := by
  have h96 : a5050ReadCount 96 = 50 := by decide
  have h := a5050_read_count_split 42949672 96
  rw [show (2 : Nat) ^ 32 = 100 * 42949672 + 96 from by norm_num, h, h96]

/-- Helper: exact upsert count of the A_50_50 mixer over the full 32-bit
range: the 96 leftover residues contribute only 46 upserts. -/
theorem a5050_upsert_count_value : a5050UpsertCount (2 ^ 32) = 2147483646 := by
  have h96 : a5050UpsertCount 96 = 46 := by decide
  have h := a5050_upsert_count_split 42949672 96
  rw [show (2 : Nat) ^ 32 = 100 * 42949672 + 96 from by norm_num, h, h96]

/-- C8 counterexample: over the full range of 2^32 possible generator
outputs, the number mapped to a read is not exactly half of 2^32. -/
theorem c8_counterexample_not_exact_half :
    a5050ReadCount (2 ^ 32) ≠ 2 ^ 32 / 2 := by
  rw [a5050_read_count_value]
  norm_num

/-- C8 (amended): the A_50_50 mixer maps a draw to a read exactly when
draw mod 100 < 50; over the full 32-bit range this yields 2147483650 reads
and 2147483646 writes - every draw is mapped to one of the two, but the
split is biased by the 96 leftover residues of 2^32 mod 100 and is not
exactly half-and-half. -/
theorem c8_a5050_split_counts :
    a5050ReadCount (2 ^ 32) = 2147483650 ∧
    a5050UpsertCount (2 ^ 32) = 2147483646 ∧
    a5050ReadCount (2 ^ 32) + a5050UpsertCount (2 ^ 32) = 2 ^ 32 := by
  refine ⟨a5050_read_count_value, a5050_upsert_count_value, ?_⟩
  rw [a5050_read_count_value, a5050_upsert_count_value]
  norm_num
